import Mathlib

/-!
Verification of the OSA directory scraper (`src/scrape-osa.js`).

The script is a single sequential Puppeteer program:
  * `scrapeData` opens one browser and one page, then runs up to three
    attempts of: navigate to the directory, enumerate pagination options,
    collect de-duplicated `PublicProfile` links, visit each link and extract
    a member record, close the browser, return the records.
  * `memberInfo` / `getText` extract labeled fields from a profile document
    by scanning all elements in document order.
  * The main IIFE writes the records to a CSV file and then, best-effort,
    to a Google Sheet.

The embedding below models:
  * profile documents as the list of element views in document order, each
    carrying exactly the DOM accessors the script reads (`tag`,
    `textContent`, the text of `nextElementSibling` when present, and the
    text of `parentElement.nextElementSibling` when both exist);
  * JS string `trim` as `jsTrim` (strip leading and trailing whitespace);
  * JS `||` on strings / optional strings as `jsOr` / `jsOrOpt`
    (empty string and `undefined` are falsy);
  * the orchestration (retry loop, pagination loop, profile walker, sinks)
    as trace-producing functions over an environment that fixes the outcome
    of every external action (navigation success, links surfaced per
    pagination option, per-profile extraction outcome, sink outcomes).
    Purely diagnostic steps (screenshots, console logging of page state,
    scrolling) are modeled as non-failing and, except for logs the claims
    mention, are not traced.
-/

/-- JS `String.prototype.trim`: strip leading and trailing whitespace. -/
def jsTrim (s : String) : String :=
  String.mk (((s.data.dropWhile Char.isWhitespace).reverse.dropWhile Char.isWhitespace).reverse)

/-- JS `a || b` for strings: `b` when `a` is empty (falsy), else `a`. -/
def jsOr (a b : String) : String :=
  if a = "" then b else a

/-- JS `x?.y || b` pattern: `b` when `x` is `undefined` or its value is falsy. -/
def jsOrOpt (a : Option String) (b : String) : String :=
  match a with
  | none => b
  | some s => jsOr s b

/-- View of one DOM element, in document order, carrying exactly the
accessors `memberInfo` reads: the tag name, `textContent`, the
`textContent` of `nextElementSibling` when that sibling exists, and the
`textContent` of `parentElement.nextElementSibling` when the parent exists
and has a following element sibling. -/
structure ElemView where
  tag : String
  textContent : String
  nextSibText : Option String
  parentNextSibText : Option String
deriving DecidableEq, Repr

/-- A profile document: its elements in document order, as returned by the
all-elements `querySelectorAll` call of `getText`. -/
abbrev ProfileDoc := List ElemView

/-- JS `document.querySelector(tag)`: first element with that tag in
document order. -/
def querySelector (doc : ProfileDoc) (tag : String) : Option ElemView :=
  doc.find? (fun e => e.tag = tag)

/-- The `getText` closure of `memberInfo` (src/scrape-osa.js:209-224): scan
every element in document order; when an element's `textContent` is truthy
and trims to the label, return the trimmed text of its next element
sibling, or, failing that, of the parent's next element sibling; when a
matching element has neither, keep scanning; return the empty string when
the scan ends. -/
def getText (doc : ProfileDoc) (label : String) : String :=
  match doc with
  | [] => ""
  | el :: rest =>
    if el.textContent ≠ "" ∧ jsTrim el.textContent = label then
      match el.nextSibText with
      | some t => jsTrim t
      | none =>
        match el.parentNextSibText with
        | some t => jsTrim t
        | none => getText rest label
    else getText rest label

/-- The record shape built for each member profile. All fields are plain
strings; the empty string is the canonical missing value. -/
structure MemberRecord where
  company : String
  contact : String
  phone : String
  email : String
  city : String
  province : String
  website : String
  memberType : String
deriving DecidableEq, Repr

/-- The `memberInfo` evaluation (src/scrape-osa.js:207-254): company from
the first `h3` falling through `||` to the first `h2`; contact as the
trimmed space-join of the `First name` and `Last name` lookups; remaining
fields via `getText`; phone and member type hardcoded empty. -/
def memberInfo (doc : ProfileDoc) : MemberRecord :=
  let company := jsOrOpt ((querySelector doc "h3").map (fun e => jsTrim e.textContent))
    (jsOrOpt ((querySelector doc "h2").map (fun e => jsTrim e.textContent)) "")
  let firstName := jsOr (getText doc "First name") ""
  let lastName := jsOr (getText doc "Last name") ""
  let contact := jsTrim (firstName ++ " " ++ lastName)
  let email := jsOr (getText doc "Email") ""
  let city := jsOr (getText doc "City") ""
  let province := jsOr (getText doc "Province/State") ""
  let website := jsOr (getText doc "Web Site") ""
  { company := company, contact := contact, phone := "", email := email,
    city := city, province := province, website := website, memberType := "" }

/-- The membership-checked append of the pagination loop
(src/scrape-osa.js:119-123): push a link only when an exact string match is
not already present. -/
def addUnique (acc : List String) (link : String) : List String :=
  if link ∈ acc then acc else acc ++ [link]

/-- Accumulation of the LinkSet across pagination pages, abstracted over
the per-option link lists: fold the membership-checked append over every
page's links, pages in presented order. -/
def collectAll (pages : List (List String)) : List String :=
  pages.foldl (fun acc page => page.foldl addUnique acc) []

/-- Modelled from the spec wording for comparison with `collectAll`:
keep each link's first occurrence, in order of first discovery. -/
def firstDiscoveryAux (seen : List String) : List String → List String
  | [] => []
  | x :: xs =>
    if x ∈ seen then firstDiscoveryAux seen xs
    else x :: firstDiscoveryAux (x :: seen) xs

/-- Spec-side first-discovery dedup of a link stream. -/
def firstDiscovery (links : List String) : List String :=
  firstDiscoveryAux [] links

/-- Observable events of one program run (logs, navigations, sink calls). -/
inductive Ev where
  | launch
  | newPage
  | attemptStart (i : Nat)
  | selectPag (i : Nat)
  | pagErrorLogged
  | visit (link : String)
  | skipLogged (i : Nat)
  | close
  | csvInvoked
  | csvWritten
  | sheetInvoked
  | sheetAuthOk
  | sheetCleared
  | sheetUpdated
  | sheetOkLogged
  | sheetErrorLogged
  | noDataLogged
  | topErrorLogged
deriving DecidableEq, Repr

/-- Links visited in a trace, in order. -/
def visitsOf (tr : List Ev) : List String :=
  tr.filterMap fun e =>
    match e with
    | Ev.visit l => some l
    | _ => none

/-- Recogniser for attempt-start events. -/
def attemptP : Ev → Bool
  | Ev.attemptStart _ => true
  | _ => false

/-- Recogniser for browser-launch events. -/
def launchP : Ev → Bool
  | Ev.launch => true
  | _ => false

/-- Recogniser for page-creation events. -/
def newPageP : Ev → Bool
  | Ev.newPage => true
  | _ => false

/-- Number of attempt starts in a trace. -/
def countAttempts (tr : List Ev) : Nat :=
  tr.countP attemptP

/-- Number of browser launches in a trace. -/
def countLaunches (tr : List Ev) : Nat :=
  tr.countP launchP

/-- Number of page creations in a trace. -/
def countNewPages (tr : List Ev) : Nat :=
  tr.countP newPageP

/-- Environment fixing every external outcome of one scrape attempt:
whether the root navigation throws, whether the pagination control is
missing (selector wait times out), the option values of the control, the
profile links surfaced after selecting the option with a given index, the
option index at which selecting or scanning throws (if any), and the
outcome of visiting plus extracting each profile (by walker index and
link; `none` is a navigation or extraction failure). -/
structure AttemptEnv where
  gotoFails : Bool
  pagControlMissing : Bool
  options : List String
  linksFor : Nat → List String
  pagFailAt : Option Nat
  fetch : Nat → String → Option MemberRecord

/-- The pagination option loop (src/scrape-osa.js:88-129): for each option
in presented order, select it, settle, scan the page's profile links, and
append the new ones to the accumulator; a throw while handling option `i`
is caught by the surrounding catch, which logs and leaves the accumulator
as collected so far. -/
def pagLoop (lf : Nat → List String) (failAt : Option Nat) :
    Nat → List String → List String → List Ev × List String
  | _, acc, [] => ([], acc)
  | i, acc, _o :: os =>
    if failAt = some i then ([Ev.pagErrorLogged], acc)
    else
      let next := pagLoop lf failAt (i + 1) ((lf i).foldl addUnique acc) os
      (Ev.selectPag i :: next.1, next.2)

/-- The guarded pagination phase: a missing control logs and yields the
empty LinkSet; otherwise run the option loop from an empty accumulator. -/
def paginationPhase (env : AttemptEnv) : List Ev × List String :=
  if env.pagControlMissing then ([Ev.pagErrorLogged], [])
  else pagLoop env.linksFor env.pagFailAt 0 [] env.options

/-- The Profile Walker loop (src/scrape-osa.js:196-266): visit each link in
order with its index; on success push the extracted record, on any
navigation or extraction error log the index and continue with no record. -/
def walkProfiles (fetch : Nat → String → Option MemberRecord) :
    Nat → List String → List Ev × List MemberRecord
  | _, [] => ([], [])
  | i, l :: ls =>
    let rest := walkProfiles fetch (i + 1) ls
    match fetch i l with
    | some m => (Ev.visit l :: rest.1, m :: rest.2)
    | none => (Ev.visit l :: Ev.skipLogged i :: rest.1, rest.2)

/-- One attempt of the try body of `scrapeData`: navigate to the directory
root (a throw propagates to the retry loop), run the pagination phase,
return the empty record list early when no links were found (without
closing the browser), otherwise walk every link, close the browser and
return the accumulated records. -/
def attemptBody (env : AttemptEnv) : List Ev × Except String (List MemberRecord) :=
  if env.gotoFails then ([], Except.error "goto") else
  let pag := paginationPhase env
  if pag.2.isEmpty then (pag.1, Except.ok [])
  else
    let walk := walkProfiles env.fetch 0 pag.2
    (pag.1 ++ walk.1 ++ [Ev.close], Except.ok walk.2)

/-- The `while (retries--)` loop of `scrapeData` (src/scrape-osa.js:59-275),
parameterised by the value of `retries` at the loop head: run the attempt;
return its records on success; on a throw, rethrow when no attempts remain
(`retries === 0` after the decrement), otherwise retry. Falling out of the
loop (fuel 0) is the unreachable JS `undefined` return, modeled as
`Except.ok none`. -/
def retryLoop (envs : Nat → AttemptEnv) :
    Nat → Nat → List Ev × Except String (Option (List MemberRecord))
  | 0, _ => ([], Except.ok none)
  | fuel + 1, i =>
    let att := attemptBody (envs i)
    match att.2 with
    | Except.ok ms => (Ev.attemptStart i :: att.1, Except.ok (some ms))
    | Except.error e =>
      if fuel = 0 then (Ev.attemptStart i :: att.1, Except.error e)
      else
        let next := retryLoop envs fuel (i + 1)
        (Ev.attemptStart i :: (att.1 ++ next.1), next.2)

/-- `scrapeData` (src/scrape-osa.js:39-276): launch one browser and open
one page, then run the retry loop with `retries` initially 3. -/
def scrapeData (envs : Nat → AttemptEnv) :
    List Ev × Except String (Option (List MemberRecord)) :=
  let l := retryLoop envs 3 0
  (Ev.launch :: Ev.newPage :: l.1, l.2)

/-- Outcomes of the three fallible spreadsheet steps: authentication,
range clear, batched update. -/
structure SheetEnv where
  authOk : Bool
  clearOk : Bool
  updateOk : Bool
deriving DecidableEq, Repr

/-- The try body of `saveToGoogleSheet` (src/scrape-osa.js:278-325):
authenticate, clear the target range, write header and data rows; the
first failing step throws. -/
def sheetBody (env : SheetEnv) : List Ev × Except String Unit :=
  if !env.authOk then ([Ev.sheetInvoked], Except.error "auth")
  else if !env.clearOk then ([Ev.sheetInvoked, Ev.sheetAuthOk], Except.error "clear")
  else if !env.updateOk then
    ([Ev.sheetInvoked, Ev.sheetAuthOk, Ev.sheetCleared], Except.error "update")
  else
    ([Ev.sheetInvoked, Ev.sheetAuthOk, Ev.sheetCleared, Ev.sheetUpdated], Except.ok ())

/-- `saveToGoogleSheet` (src/scrape-osa.js:278-335): run the body under a
catch that logs any error and returns normally, so the sink never
propagates a failure. -/
def saveToGoogleSheet (env : SheetEnv) : List Ev :=
  match sheetBody env with
  | (tr, Except.ok _) => tr ++ [Ev.sheetOkLogged]
  | (tr, Except.error _) => tr ++ [Ev.sheetErrorLogged]

/-- The main IIFE (src/scrape-osa.js:341-349): scrape; with a non-empty
row list write the CSV (a throw is caught at top level and logged, and the
sheet sink is then never reached) and then call the sheet sink; with an
empty row list log and skip both sinks; a scrape failure is caught at top
level and logged. The returned flag is true when the run completes without
a top-level error log. -/
def programRun (envs : Nat → AttemptEnv) (fileOk : Bool) (sheet : SheetEnv) :
    List Ev × Bool :=
  let s := scrapeData envs
  match s.2 with
  | Except.error _ => (s.1 ++ [Ev.topErrorLogged], false)
  | Except.ok none => (s.1 ++ [Ev.topErrorLogged], false)
  | Except.ok (some rows) =>
    if rows.length > 0 then
      if fileOk then
        (s.1 ++ [Ev.csvInvoked, Ev.csvWritten] ++ saveToGoogleSheet sheet, true)
      else (s.1 ++ [Ev.csvInvoked, Ev.topErrorLogged], false)
    else (s.1 ++ [Ev.noDataLogged], true)

/-- Concrete document: a first-name label with value, no last-name label. -/
def docFirstOnly : ProfileDoc :=
  [⟨"div", "First name", some "Jane", none⟩]

/-- Concrete document: a last-name label with value, no first-name label. -/
def docLastOnly : ProfileDoc :=
  [⟨"div", "Last name", some "Doe", none⟩]

/-- Concrete document with no labels at all. -/
def docNoNames : ProfileDoc := []

/-- Concrete document: an email label whose value sibling needs trimming. -/
def docEmailW : ProfileDoc :=
  [⟨"div", "Email", some " a@b.c ", none⟩]

/-- Concrete document whose first h3 trims to the empty string while an h2
holds the company name. -/
def docBlankH3 : ProfileDoc :=
  [⟨"h3", " ", none, none⟩, ⟨"h2", "Acme", none, none⟩]

/-- Concrete document with a single whitespace-padded h3. -/
def docAcme : ProfileDoc :=
  [⟨"h3", " Acme Signs ", none, none⟩]

/-- Events an attempt body can emit (no session lifecycle, no sinks). -/
def innerEv : Ev → Bool
  | Ev.selectPag _ => true
  | Ev.pagErrorLogged => true
  | Ev.visit _ => true
  | Ev.skipLogged _ => true
  | Ev.close => true
  | _ => false

/-- Events the retry loop can emit: attempt starts plus attempt-body
events. -/
def loopEv : Ev → Bool
  | Ev.attemptStart _ => true
  | e => innerEv e

/-- Concrete attempt environment whose root navigation throws. -/
def cFailEnv : AttemptEnv :=
  ⟨true, false, [], fun _ => [], none, fun _ _ => none⟩

/-- Concrete attempt environment with a missing pagination control, so the
attempt completes with zero links. -/
def cZeroEnv : AttemptEnv :=
  ⟨false, true, [], fun _ => [], none, fun _ _ => none⟩

/-- Concrete run whose first attempt throws at navigation and whose second
attempt completes with zero links. -/
def cEnvs : Nat → AttemptEnv :=
  fun i => if i = 0 then cFailEnv else cZeroEnv

/-- Concrete attempt environment with one pagination option surfacing one
link whose profile extracts successfully. -/
def cWalkEnv : AttemptEnv :=
  ⟨false, false, ["10"], fun _ => ["L"], none, fun _ _ => some (memberInfo docNoNames)⟩

/-- Concrete attempt environment with two pagination options where
handling the second one throws after the first surfaced one link. -/
def cPagFailEnv : AttemptEnv :=
  ⟨false, false, ["10", "25"], fun i => if i = 0 then ["A"] else ["B", "C"],
    some 1, fun _ _ => some (memberInfo docNoNames)⟩

theorem jsOr_empty_right (s : String) : jsOr s "" = s := by
  unfold jsOr
  split <;> simp_all

theorem visitsOf_visit (l : String) (tr : List Ev) :
    visitsOf (Ev.visit l :: tr) = l :: visitsOf tr := by
  simp [visitsOf]

theorem visitsOf_skip (i : Nat) (tr : List Ev) :
    visitsOf (Ev.skipLogged i :: tr) = visitsOf tr := by
  simp [visitsOf]

theorem walkProfiles_visits (fetch : Nat → String → Option MemberRecord)
    (links : List String) : ∀ i, visitsOf (walkProfiles fetch i links).1 = links := by
  induction links with
  | nil => intro i; rfl
  | cons l ls ih =>
    intro i
    cases h : fetch i l <;>
      simp [walkProfiles, h, visitsOf_visit, visitsOf_skip, ih (i + 1)]

theorem walkProfiles_records (fetch : Nat → String → Option MemberRecord)
    (links : List String) :
    ∀ i, (walkProfiles fetch i links).2 =
      (List.enumFrom i links).filterMap (fun p => fetch p.1 p.2) := by
  induction links with
  | nil => intro i; rfl
  | cons l ls ih =>
    intro i
    cases h : fetch i l <;>
      simp [walkProfiles, List.enumFrom_cons, List.filterMap_cons, h, ih (i + 1)]

/-- C1: the Profile Walker visits every link of the LinkSet exactly once in
collection order, for every pattern of per-item failures; its output is the
in-order sequence of the successfully extracted records (a failed link
contributes nothing and stops nothing), so its length is at most the
LinkSet's length. -/
theorem walker_visits_in_order_and_skips_failures
    (fetch : Nat → String → Option MemberRecord) (links : List String) :
    visitsOf (walkProfiles fetch 0 links).1 = links ∧
    (walkProfiles fetch 0 links).2 =
      links.enum.filterMap (fun p => fetch p.1 p.2) ∧
    (walkProfiles fetch 0 links).2.length ≤ links.length := by
  refine ⟨walkProfiles_visits fetch links 0, walkProfiles_records fetch links 0, ?_⟩
  rw [walkProfiles_records fetch links 0]
  calc ((List.enumFrom 0 links).filterMap (fun p => fetch p.1 p.2)).length
      ≤ (List.enumFrom 0 links).length := List.length_filterMap_le _ _
    _ = links.length := List.enumFrom_length

/-- C3: the contact field is the trim of first and last name joined by one
space; in particular a present first name alone survives as itself, a
present last name alone survives as itself, and two missing names yield
the empty string. -/
theorem contact_is_trimmed_join :
    (∀ (doc : ProfileDoc) (f l : String),
      getText doc "First name" = f → getText doc "Last name" = l →
      (memberInfo doc).contact = jsTrim (f ++ " " ++ l)) ∧
    (memberInfo docFirstOnly).contact = "Jane" ∧
    (memberInfo docLastOnly).contact = "Doe" ∧
    (memberInfo docNoNames).contact = "" := by
  refine ⟨?_, by decide, by decide, by decide⟩
  intro doc f l hf hl
  simp [memberInfo, hf, hl, jsOr_empty_right]

/-- Witness for C3 on a concrete document with only a first name. -/
theorem contact_is_trimmed_join_witness :
    getText docFirstOnly "First name" = "Jane" ∧
    getText docFirstOnly "Last name" = "" ∧
    (memberInfo docFirstOnly).contact = jsTrim ("Jane" ++ " " ++ "") :=
  ⟨by decide, by decide,
    contact_is_trimmed_join.1 docFirstOnly "Jane" "" (by decide) (by decide)⟩

theorem firstDiscoveryAux_congr (l : List String) :
    ∀ s₁ s₂, (∀ a, a ∈ s₁ ↔ a ∈ s₂) →
      firstDiscoveryAux s₁ l = firstDiscoveryAux s₂ l := by
  induction l with
  | nil => intro s₁ s₂ _; rfl
  | cons x xs ih =>
    intro s₁ s₂ h
    by_cases hx : x ∈ s₁
    · rw [firstDiscoveryAux, firstDiscoveryAux, if_pos hx, if_pos ((h x).mp hx),
        ih s₁ s₂ h]
    · rw [firstDiscoveryAux, firstDiscoveryAux, if_neg hx,
        if_neg (fun hc => hx ((h x).mpr hc))]
      have h' : ∀ a, a ∈ x :: s₁ ↔ a ∈ x :: s₂ := by
        intro a
        simp only [List.mem_cons]
        exact or_congr Iff.rfl (h a)
      rw [ih (x :: s₁) (x :: s₂) h']

theorem foldl_addUnique_eq (l : List String) :
    ∀ acc, l.foldl addUnique acc = acc ++ firstDiscoveryAux acc l := by
  induction l with
  | nil => intro acc; simp [firstDiscoveryAux]
  | cons x xs ih =>
    intro acc
    by_cases hx : x ∈ acc
    · rw [List.foldl_cons, addUnique, if_pos hx, ih acc, firstDiscoveryAux, if_pos hx]
    · rw [List.foldl_cons, addUnique, if_neg hx, ih (acc ++ [x]),
        firstDiscoveryAux, if_neg hx]
      have h' : firstDiscoveryAux (acc ++ [x]) xs = firstDiscoveryAux (x :: acc) xs := by
        apply firstDiscoveryAux_congr
        intro a
        simp only [List.mem_append, List.mem_singleton, List.mem_cons]
        tauto
      rw [h']
      simp

theorem firstDiscoveryAux_nodup (l : List String) :
    ∀ seen, (firstDiscoveryAux seen l).Nodup ∧
      ∀ a ∈ firstDiscoveryAux seen l, a ∉ seen := by
  induction l with
  | nil => intro seen; simp [firstDiscoveryAux]
  | cons x xs ih =>
    intro seen
    by_cases hx : x ∈ seen
    · rw [firstDiscoveryAux, if_pos hx]
      exact ih seen
    · rw [firstDiscoveryAux, if_neg hx]
      obtain ⟨hnd, hout⟩ := ih (x :: seen)
      refine ⟨List.nodup_cons.mpr ⟨fun hc => (hout x hc) (List.mem_cons_self x seen), hnd⟩, ?_⟩
      intro a ha
      rcases List.mem_cons.mp ha with rfl | ha'
      · exact hx
      · exact fun hc => (hout a ha') (List.mem_cons_of_mem x hc)

theorem pagLoop_none_acc (lf : Nat → List String) (os : List String) :
    ∀ i acc, (pagLoop lf none i acc os).2 =
      (List.range' i os.length).foldl (fun a k => (lf k).foldl addUnique a) acc := by
  induction os with
  | nil => intro i acc; rfl
  | cons o os ih =>
    intro i acc
    rw [pagLoop, List.length_cons, List.range'_succ]
    simp only [reduceCtorEq, if_false]
    exact ih (i + 1) ((lf i).foldl addUnique acc)

/-- C2: the LinkSet accumulated by the pagination loop contains no
duplicate URL, lists links in first-discovery order across options in
presented order, and on option pages surfacing A,B then B,C it is exactly
A,B,C. -/
theorem linkset_unique_first_discovery (lf : Nat → List String) (opts : List String) :
    (pagLoop lf none 0 [] opts).2.Nodup ∧
    (pagLoop lf none 0 [] opts).2 =
      firstDiscovery (((List.range' 0 opts.length).map lf).flatten) ∧
    (pagLoop (fun i => if i = 0 then ["A", "B"] else ["B", "C"])
        none 0 [] ["10", "25"]).2 = ["A", "B", "C"] := by
  have key : (pagLoop lf none 0 [] opts).2 =
      firstDiscovery (((List.range' 0 opts.length).map lf).flatten) := by
    have h1 : (((List.range' 0 opts.length).map lf).flatten).foldl addUnique [] =
        (List.range' 0 opts.length).foldl (fun a k => (lf k).foldl addUnique a) [] := by
      rw [List.foldl_flatten, List.foldl_map]
    rw [pagLoop_none_acc lf opts 0 [], ← h1, foldl_addUnique_eq]
    simp [firstDiscovery]
  refine ⟨?_, key, by decide⟩
  rw [key, firstDiscovery]
  exact (firstDiscoveryAux_nodup _ []).1

theorem jsTrim_empty : jsTrim "" = "" := by decide

theorem getText_absent (doc : ProfileDoc) (label : String)
    (h : ∀ e ∈ doc, jsTrim e.textContent ≠ label) : getText doc label = "" := by
  induction doc with
  | nil => rfl
  | cons el rest ih =>
    simp only [getText]
    rw [if_neg (fun hc => h el (List.mem_cons_self el rest) hc.2)]
    exact ih fun e he => h e (List.mem_cons_of_mem el he)

theorem getText_first_match (label : String) (hl : label ≠ "") :
    ∀ (pre : ProfileDoc) (el : ElemView) (post : ProfileDoc),
      (∀ e ∈ pre, jsTrim e.textContent ≠ label) →
      jsTrim el.textContent = label →
      (∀ t, el.nextSibText = some t → getText (pre ++ el :: post) label = jsTrim t) ∧
      (el.nextSibText = none → ∀ t, el.parentNextSibText = some t →
        getText (pre ++ el :: post) label = jsTrim t) := by
  intro pre
  induction pre with
  | nil =>
    intro el post _ hel
    have hne : el.textContent ≠ "" := by
      intro hc
      rw [hc, jsTrim_empty] at hel
      exact hl hel.symm
    constructor
    · intro t ht
      simp only [List.nil_append, getText]
      rw [if_pos ⟨hne, hel⟩, ht]
    · intro hn t ht
      simp only [List.nil_append, getText]
      rw [if_pos ⟨hne, hel⟩, hn, ht]
  | cons p pre' ih =>
    intro el post hpre hel
    have hstep : getText ((p :: pre') ++ el :: post) label =
        getText (pre' ++ el :: post) label := by
      simp only [List.cons_append, getText]
      rw [if_neg (fun hc => hpre p (List.mem_cons_self p pre') hc.2)]
      rfl
    have := ih el post (fun e he => hpre e (List.mem_cons_of_mem p he)) hel
    exact ⟨fun t ht => hstep.trans (this.1 t ht),
      fun hn t ht => hstep.trans (this.2 hn t ht)⟩

/-- C4: the field lookup is total and string-valued (every `memberInfo`
field is a `getText` result or a hardcoded string); when the target label
is the exact trimmed text of the first matching element, the lookup
returns the trimmed text of that element's next sibling, or of the
parent's next sibling when the former is absent; when the label matches no
element anywhere, the lookup returns the empty string. -/
theorem field_lookup_label_or_empty (doc : ProfileDoc) (label : String) :
    ((∀ e ∈ doc, jsTrim e.textContent ≠ label) → getText doc label = "") ∧
    (label ≠ "" →
      ∀ (pre : ProfileDoc) (el : ElemView) (post : ProfileDoc),
        doc = pre ++ el :: post →
        (∀ e ∈ pre, jsTrim e.textContent ≠ label) →
        jsTrim el.textContent = label →
        (∀ t, el.nextSibText = some t → getText doc label = jsTrim t) ∧
        (el.nextSibText = none → ∀ t, el.parentNextSibText = some t →
          getText doc label = jsTrim t)) ∧
    (memberInfo doc).email = getText doc "Email" ∧
    (memberInfo doc).city = getText doc "City" ∧
    (memberInfo doc).province = getText doc "Province/State" ∧
    (memberInfo doc).website = getText doc "Web Site" ∧
    (memberInfo doc).phone = "" ∧
    (memberInfo doc).memberType = "" := by
  refine ⟨getText_absent doc label, ?_, ?_, ?_, ?_, ?_, rfl, rfl⟩
  · intro hl pre el post hdoc hpre hel
    subst hdoc
    exact getText_first_match label hl pre el post hpre hel
  all_goals simp [memberInfo, jsOr_empty_right]

/-- Witness for C4 on a concrete document: label found, sibling trimmed;
and a label absent from the same document yields the empty string. -/
theorem field_lookup_label_or_empty_witness :
    getText docEmailW "Email" = "a@b.c" ∧ getText docEmailW "City" = "" :=
  ⟨((((field_lookup_label_or_empty docEmailW "Email").2.1 (by decide)
      [] ⟨"div", "Email", some " a@b.c ", none⟩ [] rfl (by simp) (by decide)).1
      " a@b.c ") rfl).trans (by decide),
    (field_lookup_label_or_empty docEmailW "City").1 (by decide)⟩

/-- C5 counterexample: a document whose first h3 exists but whose text
trims to the empty string; the falsy propagation of the JS disjunction
falls through to the h2, so the company field is not the trimmed text of
the first h3 as the claim states. -/
theorem company_not_always_h3_text :
    querySelector docBlankH3 "h3" = some ⟨"h3", " ", none, none⟩ ∧
    jsTrim " " = "" ∧
    (memberInfo docBlankH3).company = "Acme" ∧
    (memberInfo docBlankH3).company ≠ jsTrim " " :=
  ⟨by decide, by decide, by decide, by decide⟩

/-- C5 (amended): the company field is the trimmed text of the first h3
when that is nonempty; when the h3 is absent or trims to the empty string
it is the trimmed text of the first h2 when that is present and nonempty;
otherwise it is the empty string. -/
theorem company_heading_with_falsy_fallback (doc : ProfileDoc) :
    (∀ e, querySelector doc "h3" = some e → jsTrim e.textContent ≠ "" →
      (memberInfo doc).company = jsTrim e.textContent) ∧
    ((∀ e, querySelector doc "h3" = some e → jsTrim e.textContent = "") →
      ∀ f, querySelector doc "h2" = some f → jsTrim f.textContent ≠ "" →
        (memberInfo doc).company = jsTrim f.textContent) ∧
    ((∀ e, querySelector doc "h3" = some e → jsTrim e.textContent = "") →
      (∀ f, querySelector doc "h2" = some f → jsTrim f.textContent = "") →
      (memberInfo doc).company = "") := by
  have hco : (memberInfo doc).company =
      jsOrOpt ((querySelector doc "h3").map (fun e => jsTrim e.textContent))
        (jsOrOpt ((querySelector doc "h2").map (fun e => jsTrim e.textContent)) "") := by
    simp [memberInfo]
  refine ⟨?_, ?_, ?_⟩
  · intro e he hne
    rw [hco, he]
    simp [jsOrOpt, jsOr, hne]
  · intro h3e f hf hnf
    rw [hco]
    cases h3 : querySelector doc "h3" with
    | none =>
      rw [hf]
      simp [jsOrOpt, jsOr, hnf]
    | some e =>
      rw [hf]
      simp [jsOrOpt, jsOr, h3e e h3, hnf]
  · intro h3e h2e
    rw [hco]
    cases h3 : querySelector doc "h3" with
    | none =>
      cases h2 : querySelector doc "h2" with
      | none => simp [jsOrOpt]
      | some f => simp [jsOrOpt, jsOr, h2e f h2]
    | some e =>
      cases h2 : querySelector doc "h2" with
      | none => simp [jsOrOpt, jsOr, h3e e h3]
      | some f => simp [jsOrOpt, jsOr, h3e e h3, h2e f h2]

/-- Witness for the amended C5 on a concrete whitespace-padded h3. -/
theorem company_heading_with_falsy_fallback_witness :
    (memberInfo docAcme).company = "Acme Signs" :=
  ((company_heading_with_falsy_fallback docAcme).1
    ⟨"h3", " Acme Signs ", none, none⟩ (by decide) (by decide)).trans (by decide)

theorem innerEv_loopEv (e : Ev) (h : innerEv e = true) : loopEv e = true := by
  cases e <;> simp_all [innerEv, loopEv]

theorem loopEv_shape (e : Ev) (h : loopEv e = true) :
    e ≠ Ev.launch ∧ e ≠ Ev.newPage ∧ e ≠ Ev.csvInvoked ∧ e ≠ Ev.sheetInvoked ∧
    e ≠ Ev.sheetErrorLogged ∧ e ≠ Ev.noDataLogged ∧ e ≠ Ev.topErrorLogged := by
  cases e <;> simp_all [loopEv, innerEv]

theorem pagLoop_inner (lf : Nat → List String) (fa : Option Nat) (os : List String) :
    ∀ i acc, ∀ e ∈ (pagLoop lf fa i acc os).1, innerEv e = true ∧ e ≠ Ev.close := by
  induction os with
  | nil => intro i acc e he; simp [pagLoop] at he
  | cons o os ih =>
    intro i acc e he
    rw [pagLoop] at he
    by_cases hf : fa = some i
    · rw [if_pos hf] at he
      simp at he
      subst he
      exact ⟨rfl, by simp⟩
    · rw [if_neg hf] at he
      rcases List.mem_cons.mp he with rfl | he'
      · exact ⟨rfl, by simp⟩
      · exact ih (i + 1) ((lf i).foldl addUnique acc) e he'

theorem pagPhase_inner (env : AttemptEnv) :
    ∀ e ∈ (paginationPhase env).1, innerEv e = true ∧ e ≠ Ev.close := by
  intro e he
  rw [paginationPhase] at he
  by_cases hm : env.pagControlMissing
  · rw [if_pos hm] at he
    simp at he
    subst he
    exact ⟨rfl, by simp⟩
  · rw [if_neg hm] at he
    exact pagLoop_inner env.linksFor env.pagFailAt env.options 0 [] e he

theorem walkProfiles_inner (fetch : Nat → String → Option MemberRecord)
    (ls : List String) :
    ∀ i, ∀ e ∈ (walkProfiles fetch i ls).1, innerEv e = true ∧ e ≠ Ev.close := by
  induction ls with
  | nil => intro i e he; simp [walkProfiles] at he
  | cons l ls ih =>
    intro i e he
    rw [walkProfiles] at he
    cases hf : fetch i l <;> rw [hf] at he <;> simp only at he
    · rcases List.mem_cons.mp he with rfl | he'
      · exact ⟨rfl, by simp⟩
      · rcases List.mem_cons.mp he' with rfl | he''
        · exact ⟨rfl, by simp⟩
        · exact ih (i + 1) e he''
    · rcases List.mem_cons.mp he with rfl | he'
      · exact ⟨rfl, by simp⟩
      · exact ih (i + 1) e he'

theorem attemptBody_inner (env : AttemptEnv) :
    ∀ e ∈ (attemptBody env).1, innerEv e = true := by
  intro e he
  rw [attemptBody] at he
  by_cases hg : env.gotoFails
  · rw [if_pos hg] at he
    simp at he
  · rw [if_neg hg] at he
    simp only at he
    by_cases hl : (paginationPhase env).2.isEmpty
    · rw [if_pos hl] at he
      exact (pagPhase_inner env e he).1
    · rw [if_neg hl] at he
      rcases List.mem_append.mp he with h1 | h2
      · rcases List.mem_append.mp h1 with h3 | h4
        · exact (pagPhase_inner env e h3).1
        · exact (walkProfiles_inner env.fetch (paginationPhase env).2 0 e h4).1
      · simp at h2
        subst h2
        rfl

theorem retryLoop_events (envs : Nat → AttemptEnv) :
    ∀ fuel i, ∀ e ∈ (retryLoop envs fuel i).1, loopEv e = true := by
  intro fuel
  induction fuel with
  | zero => intro i e he; simp [retryLoop] at he
  | succ fuel ih =>
    intro i e he
    rw [retryLoop] at he
    cases hres : (attemptBody (envs i)).2 <;> rw [hres] at he <;> simp only at he
    · by_cases hf : fuel = 0
      · rw [if_pos hf] at he
        rcases List.mem_cons.mp he with rfl | he'
        · rfl
        · exact innerEv_loopEv e (attemptBody_inner (envs i) e he')
      · rw [if_neg hf] at he
        rcases List.mem_cons.mp he with rfl | he'
        · rfl
        · rcases List.mem_append.mp he' with h1 | h2
          · exact innerEv_loopEv e (attemptBody_inner (envs i) e h1)
          · exact ih (i + 1) e h2
    · rcases List.mem_cons.mp he with rfl | he'
      · rfl
      · exact innerEv_loopEv e (attemptBody_inner (envs i) e he')

theorem scrapeData_events (envs : Nat → AttemptEnv) :
    ∀ e ∈ (scrapeData envs).1, e = Ev.launch ∨ e = Ev.newPage ∨ loopEv e = true := by
  intro e he
  rw [scrapeData] at he
  simp only at he
  rcases List.mem_cons.mp he with rfl | he'
  · exact Or.inl rfl
  · rcases List.mem_cons.mp he' with rfl | he''
    · exact Or.inr (Or.inl rfl)
    · exact Or.inr (Or.inr (retryLoop_events envs 3 0 e he''))

theorem scrapeData_not_mem (envs : Nat → AttemptEnv) (x : Ev)
    (h1 : loopEv x = false) (h2 : x ≠ Ev.launch) (h3 : x ≠ Ev.newPage) :
    x ∉ (scrapeData envs).1 := by
  intro hx
  rcases scrapeData_events envs x hx with h | h | h
  · exact h2 h
  · exact h3 h
  · rw [h1] at h
    exact Bool.false_ne_true h

theorem countP_eq_zero_of_inner (p : Ev → Bool) (tr : List Ev)
    (hp : ∀ e, innerEv e = true → p e = false)
    (h : ∀ e ∈ tr, innerEv e = true) : tr.countP p = 0 := by
  rw [List.countP_eq_zero]
  intro e he
  rw [hp e (h e he)]
  simp

theorem countAttempts_attemptBody (env : AttemptEnv) :
    countAttempts (attemptBody env).1 = 0 := by
  rw [countAttempts]
  refine countP_eq_zero_of_inner attemptP (attemptBody env).1 ?_ (attemptBody_inner env)
  intro e he
  cases e <;> simp_all [innerEv, attemptP]

theorem countAttempts_retryLoop (envs : Nat → AttemptEnv) :
    ∀ fuel i, countAttempts (retryLoop envs fuel i).1 ≤ fuel := by
  intro fuel
  induction fuel with
  | zero => intro i; simp [retryLoop, countAttempts]
  | succ fuel ih =>
    intro i
    rw [retryLoop]
    cases hres : (attemptBody (envs i)).2 <;> simp only
    · by_cases hf : fuel = 0
      · rw [if_pos hf, hf]
        have h0 := countAttempts_attemptBody (envs i)
        rw [countAttempts] at h0 ⊢
        rw [List.countP_cons, h0]
        simp [attemptP]
      · rw [if_neg hf]
        have h0 := countAttempts_attemptBody (envs i)
        have h1 := ih (i + 1)
        rw [countAttempts] at h0 h1 ⊢
        rw [List.countP_cons, List.countP_append, h0]
        have hc : (if attemptP (Ev.attemptStart i) = true then 1 else 0) = 1 := by
          simp [attemptP]
        rw [hc]
        omega
    · have h0 := countAttempts_attemptBody (envs i)
      rw [countAttempts] at h0 ⊢
      rw [List.countP_cons, h0]
      simp [attemptP]

theorem countAttempts_scrapeData_le (envs : Nat → AttemptEnv) :
    countAttempts (scrapeData envs).1 ≤ 3 := by
  rw [scrapeData]
  simp only
  rw [countAttempts, List.countP_cons, List.countP_cons]
  have h := countAttempts_retryLoop envs 3 0
  rw [countAttempts] at h
  have e1 : (if attemptP Ev.launch = true then 1 else 0) = 0 := rfl
  have e2 : (if attemptP Ev.newPage = true then 1 else 0) = 0 := rfl
  rw [e1, e2]
  omega

theorem retryLoop_all_fail (envs : Nat → AttemptEnv)
    (hfail : ∀ i, attemptBody (envs i) = ([], Except.error "goto")) :
    retryLoop envs 3 0 =
      ([Ev.attemptStart 0, Ev.attemptStart 1, Ev.attemptStart 2],
        Except.error "goto") := by
  have h1 : retryLoop envs 1 2 = ([Ev.attemptStart 2], Except.error "goto") := by
    show retryLoop envs (0 + 1) 2 = _
    rw [retryLoop, hfail 2]
    simp
  have h2 : retryLoop envs 2 1 =
      ([Ev.attemptStart 1, Ev.attemptStart 2], Except.error "goto") := by
    show retryLoop envs (1 + 1) 1 = _
    rw [retryLoop, hfail 1]
    simp [h1]
  show retryLoop envs (2 + 1) 0 = _
  rw [retryLoop, hfail 0]
  simp [h2]

/-- C8: every uncaught in-attempt error triggers a whole-run retry while
attempts remain; the attempt count of any run is bounded by the constant 3;
with every attempt failing, exactly 3 attempts run, the final error
propagates out of `scrapeData`, and the run aborts with neither sink
invoked. -/
theorem retry_bounded_and_error_propagates (envs : Nat → AttemptEnv)
    (fileOk : Bool) (sheet : SheetEnv)
    (hfail : ∀ i, (envs i).gotoFails = true) :
    (∀ envs' : Nat → AttemptEnv, countAttempts (scrapeData envs').1 ≤ 3) ∧
    countAttempts (scrapeData envs).1 = 3 ∧
    (scrapeData envs).2 = Except.error "goto" ∧
    (programRun envs fileOk sheet).2 = false ∧
    Ev.csvInvoked ∉ (programRun envs fileOk sheet).1 ∧
    Ev.sheetInvoked ∉ (programRun envs fileOk sheet).1 := by
  have hab : ∀ i, attemptBody (envs i) = ([], Except.error "goto") := by
    intro i
    rw [attemptBody, if_pos (hfail i)]
  have hT : scrapeData envs =
      ([Ev.launch, Ev.newPage, Ev.attemptStart 0, Ev.attemptStart 1,
        Ev.attemptStart 2], Except.error "goto") := by
    rw [scrapeData, retryLoop_all_fail envs hab]
  have hP : programRun envs fileOk sheet =
      ([Ev.launch, Ev.newPage, Ev.attemptStart 0, Ev.attemptStart 1,
        Ev.attemptStart 2, Ev.topErrorLogged], false) := by
    rw [programRun, hT]
    rfl
  refine ⟨countAttempts_scrapeData_le, ?_, ?_, ?_, ?_, ?_⟩
  · rw [hT]; decide
  · rw [hT]
  · rw [hP]
  · rw [hP]; decide
  · rw [hP]; decide

/-- Witness for C8: a concrete run whose every attempt fails at navigation
makes exactly three attempts and propagates the final error. -/
theorem retry_bounded_and_error_propagates_witness :
    countAttempts (scrapeData (fun _ => cFailEnv)).1 = 3 ∧
    (scrapeData (fun _ => cFailEnv)).2 = Except.error "goto" := by
  have h := retry_bounded_and_error_propagates (fun _ => cFailEnv) true
    ⟨true, true, true⟩ (fun _ => rfl)
  exact ⟨h.2.1, h.2.2.1⟩

theorem sheetErrorLogged_mem (sheet : SheetEnv)
    (h : sheet.authOk = false ∨ sheet.clearOk = false ∨ sheet.updateOk = false) :
    Ev.sheetErrorLogged ∈ saveToGoogleSheet sheet := by
  obtain ⟨a, c, u⟩ := sheet
  cases a <;> cases c <;> cases u <;> simp_all [saveToGoogleSheet, sheetBody]

theorem pagPhase_not_mem (env : AttemptEnv) (x : Ev) (hx : innerEv x = false) :
    x ∉ (paginationPhase env).1 := by
  intro hmem
  have h := (pagPhase_inner env x hmem).1
  rw [hx] at h
  exact Bool.false_ne_true h

/-- C6: with a non-empty record sequence the file sink runs before any
spreadsheet-sink invocation; a file-sink failure aborts the run with the
spreadsheet sink never invoked; every spreadsheet-step failure is caught
and logged inside the sink, and the run is reported successful whenever
the file sink succeeded, whatever the spreadsheet outcome. -/
theorem file_sink_first_sheet_isolated (envs : Nat → AttemptEnv)
    (fileOk : Bool) (sheet : SheetEnv) (rows : List MemberRecord)
    (hs : (scrapeData envs).2 = Except.ok (some rows)) (hne : rows ≠ []) :
    (∃ pre post, (programRun envs fileOk sheet).1 = pre ++ Ev.csvInvoked :: post ∧
      Ev.sheetInvoked ∉ pre) ∧
    (fileOk = false → Ev.sheetInvoked ∉ (programRun envs fileOk sheet).1 ∧
      (programRun envs fileOk sheet).2 = false) ∧
    (fileOk = true → (programRun envs fileOk sheet).2 = true) ∧
    (fileOk = true →
      (sheet.authOk = false ∨ sheet.clearOk = false ∨ sheet.updateOk = false) →
      Ev.sheetErrorLogged ∈ (programRun envs fileOk sheet).1 ∧
      (programRun envs fileOk sheet).2 = true) := by
  have hlen : rows.length > 0 := List.length_pos.mpr hne
  have hnos : Ev.sheetInvoked ∉ (scrapeData envs).1 :=
    scrapeData_not_mem envs Ev.sheetInvoked rfl (by decide) (by decide)
  cases fileOk with
  | false =>
    have hP : programRun envs false sheet =
        ((scrapeData envs).1 ++ [Ev.csvInvoked, Ev.topErrorLogged], false) := by
      rw [programRun, hs]
      simp [hlen]
    refine ⟨⟨(scrapeData envs).1, [Ev.topErrorLogged], by rw [hP], hnos⟩, ?_, ?_, ?_⟩
    · intro _
      constructor
      · rw [hP]
        intro hmem
        rcases List.mem_append.mp hmem with h1 | h2
        · exact hnos h1
        · simp at h2
      · rw [hP]
    · intro hc
      exact absurd hc (by decide)
    · intro hc
      exact absurd hc (by decide)
  | true =>
    have hP : programRun envs true sheet =
        ((scrapeData envs).1 ++ [Ev.csvInvoked, Ev.csvWritten] ++
          saveToGoogleSheet sheet, true) := by
      rw [programRun, hs]
      simp [hlen]
    refine ⟨⟨(scrapeData envs).1, Ev.csvWritten :: saveToGoogleSheet sheet,
      by rw [hP]; simp, hnos⟩, ?_, ?_, ?_⟩
    · intro hc
      exact absurd hc (by decide)
    · intro _
      rw [hP]
    · intro _ hbad
      refine ⟨?_, by rw [hP]⟩
      rw [hP]
      exact List.mem_append.mpr (Or.inr (sheetErrorLogged_mem sheet hbad))

/-- Witness for C6: a concrete one-link run with a failing spreadsheet
authentication is still reported successful and logs the sheet error. -/
theorem file_sink_first_sheet_isolated_witness :
    (programRun (fun _ => cWalkEnv) true ⟨false, true, true⟩).2 = true ∧
    Ev.sheetErrorLogged ∈ (programRun (fun _ => cWalkEnv) true ⟨false, true, true⟩).1 := by
  have h := file_sink_first_sheet_isolated (fun _ => cWalkEnv) true ⟨false, true, true⟩
    [memberInfo docNoNames] (by rfl) (by decide)
  exact ⟨h.2.2.1 rfl, (h.2.2.2 rfl (Or.inl rfl)).1⟩

/-- C7: an attempt that discovers zero profile links completes with zero
records, and any run whose scrape returns zero records invokes neither the
file sink nor the spreadsheet sink. -/
theorem zero_links_zero_records_no_sinks (envs : Nat → AttemptEnv)
    (fileOk : Bool) (sheet : SheetEnv) (env : AttemptEnv) :
    (env.gotoFails = false → (paginationPhase env).2 = [] →
      (attemptBody env).2 = Except.ok []) ∧
    ((scrapeData envs).2 = Except.ok (some []) →
      Ev.csvInvoked ∉ (programRun envs fileOk sheet).1 ∧
      Ev.sheetInvoked ∉ (programRun envs fileOk sheet).1) := by
  constructor
  · intro h0 hp
    have hab : attemptBody env = ((paginationPhase env).1, Except.ok []) := by
      rw [attemptBody, if_neg (by simp [h0])]
      simp [hp]
    rw [hab]
  · intro hs
    have hP : programRun envs fileOk sheet =
        ((scrapeData envs).1 ++ [Ev.noDataLogged], true) := by
      rw [programRun, hs]
      rfl
    constructor
    · rw [hP]
      intro hmem
      rcases List.mem_append.mp hmem with h | h
      · exact scrapeData_not_mem envs Ev.csvInvoked rfl (by decide) (by decide) h
      · simp at h
    · rw [hP]
      intro hmem
      rcases List.mem_append.mp hmem with h | h
      · exact scrapeData_not_mem envs Ev.sheetInvoked rfl (by decide) (by decide) h
      · simp at h

/-- Witness for C7: a concrete run with a missing pagination control
completes with zero records and no sink invocation. -/
theorem zero_links_zero_records_no_sinks_witness :
    (attemptBody cZeroEnv).2 = Except.ok [] ∧
    Ev.csvInvoked ∉ (programRun (fun _ => cZeroEnv) true ⟨true, true, true⟩).1 := by
  have h := zero_links_zero_records_no_sinks (fun _ => cZeroEnv) true
    ⟨true, true, true⟩ cZeroEnv
  exact ⟨h.1 rfl rfl, (h.2 (by rfl)).1⟩

theorem launchP_eq_false (e : Ev) (h : e ≠ Ev.launch) : launchP e = false := by
  cases e <;> simp_all [launchP]

theorem newPageP_eq_false (e : Ev) (h : e ≠ Ev.newPage) : newPageP e = false := by
  cases e <;> simp_all [newPageP]

theorem countLaunches_scrapeData (envs : Nat → AttemptEnv) :
    countLaunches (scrapeData envs).1 = 1 := by
  have hz : (retryLoop envs 3 0).1.countP launchP = 0 := by
    rw [List.countP_eq_zero]
    intro e he
    have h1 := loopEv_shape e (retryLoop_events envs 3 0 e he)
    rw [launchP_eq_false e h1.1]
    simp
  rw [scrapeData]
  simp only
  rw [countLaunches, List.countP_cons, List.countP_cons, hz]
  rfl

theorem countNewPages_scrapeData (envs : Nat → AttemptEnv) :
    countNewPages (scrapeData envs).1 = 1 := by
  have hz : (retryLoop envs 3 0).1.countP newPageP = 0 := by
    rw [List.countP_eq_zero]
    intro e he
    have h1 := loopEv_shape e (retryLoop_events envs 3 0 e he)
    rw [newPageP_eq_false e h1.2.1]
    simp
  rw [scrapeData]
  simp only
  rw [countNewPages, List.countP_cons, List.countP_cons, hz]
  rfl

/-- C9 counterexample: a run whose first attempt fails and whose second
attempt completes cleanly with zero links makes two attempts inside one
single browser launch and one single page (the session is reused across
the retry, not fresh), and returns without ever closing the session. -/
theorem fresh_session_claim_fails :
    countAttempts (scrapeData cEnvs).1 = 2 ∧
    countLaunches (scrapeData cEnvs).1 = 1 ∧
    countNewPages (scrapeData cEnvs).1 = 1 ∧
    (scrapeData cEnvs).2 = Except.ok (some []) ∧
    Ev.close ∉ (scrapeData cEnvs).1 :=
  ⟨by decide, by decide, by decide, by rfl, by decide⟩

/-- C9 (amended): the browsing session is launched once per `scrapeData`
call and shared by every attempt (retries reuse the same browser and
page); a clean completion through the walking path (at least one link)
closes the session as its last action before returning the records; a
zero-link completion returns the empty record list without closing the
session. -/
theorem single_session_shared_across_attempts (envs : Nat → AttemptEnv)
    (env : AttemptEnv) :
    countLaunches (scrapeData envs).1 = 1 ∧
    countNewPages (scrapeData envs).1 = 1 ∧
    (env.gotoFails = false → (paginationPhase env).2 ≠ [] →
      (attemptBody env).1.getLast? = some Ev.close ∧
      (attemptBody env).2 =
        Except.ok (walkProfiles env.fetch 0 (paginationPhase env).2).2) ∧
    (env.gotoFails = false → (paginationPhase env).2 = [] →
      Ev.close ∉ (attemptBody env).1 ∧ (attemptBody env).2 = Except.ok []) := by
  refine ⟨countLaunches_scrapeData envs, countNewPages_scrapeData envs, ?_, ?_⟩
  · intro hg hl
    have hA : attemptBody env =
        ((paginationPhase env).1 ++
          (walkProfiles env.fetch 0 (paginationPhase env).2).1 ++ [Ev.close],
          Except.ok (walkProfiles env.fetch 0 (paginationPhase env).2).2) := by
      rw [attemptBody, if_neg (by simp [hg])]
      simp [List.isEmpty_iff, hl]
    rw [hA]
    exact ⟨List.getLast?_concat _, rfl⟩
  · intro hg hl
    have hA : attemptBody env = ((paginationPhase env).1, Except.ok []) := by
      rw [attemptBody, if_neg (by simp [hg])]
      simp [hl]
    rw [hA]
    refine ⟨?_, rfl⟩
    intro hmem
    exact (pagPhase_inner env Ev.close hmem).2 rfl

/-- Witness for the amended C9: a failing-then-zero-link run launches one
browser, and a one-link attempt ends with the session close. -/
theorem single_session_shared_across_attempts_witness :
    countLaunches (scrapeData cEnvs).1 = 1 ∧
    (attemptBody cWalkEnv).1.getLast? = some Ev.close := by
  have h := single_session_shared_across_attempts cEnvs cWalkEnv
  exact ⟨h.1, (h.2.2.1 rfl (by decide)).1⟩

theorem visitsOf_append (a b : List Ev) :
    visitsOf (a ++ b) = visitsOf a ++ visitsOf b := by
  rw [visitsOf, visitsOf, visitsOf, List.filterMap_append]

theorem pagLoop_no_visit (lf : Nat → List String) (fa : Option Nat) (os : List String) :
    ∀ i acc, visitsOf (pagLoop lf fa i acc os).1 = [] := by
  induction os with
  | nil => intro i acc; rfl
  | cons o os ih =>
    intro i acc
    rw [pagLoop]
    by_cases hf : fa = some i
    · rw [if_pos hf]
      rfl
    · rw [if_neg hf]
      simp only [visitsOf, List.filterMap_cons]
      exact ih (i + 1) ((lf i).foldl addUnique acc)

theorem pagPhase_no_visit (env : AttemptEnv) :
    visitsOf (paginationPhase env).1 = [] := by
  rw [paginationPhase]
  by_cases hm : env.pagControlMissing
  · rw [if_pos hm]
    rfl
  · rw [if_neg hm]
    exact pagLoop_no_visit env.linksFor env.pagFailAt env.options 0 []

theorem pagLoop_fail_mem (lf : Nat → List String) (k : Nat) :
    ∀ (os : List String) (i : Nat) (acc : List String), i ≤ k → k < i + os.length →
      Ev.pagErrorLogged ∈ (pagLoop lf (some k) i acc os).1 := by
  intro os
  induction os with
  | nil =>
    intro i acc h1 h2
    simp at h2
    omega
  | cons o os ih =>
    intro i acc h1 h2
    by_cases hk : k = i
    · subst hk
      rw [pagLoop, if_pos rfl]
      simp
    · rw [pagLoop, if_neg (fun hcc => hk (Option.some.inj hcc))]
      simp only [List.mem_cons]
      refine Or.inr (ih (i + 1) ((lf i).foldl addUnique acc) (by omega) ?_)
      simp only [List.length_cons] at h2
      omega

theorem pagLoop_fail_take (lf : Nat → List String) (k : Nat) :
    ∀ (os : List String) (i : Nat) (acc : List String), i ≤ k →
      (pagLoop lf (some k) i acc os).2 =
        (pagLoop lf none i acc (os.take (k - i))).2 := by
  intro os
  induction os with
  | nil =>
    intro i acc _
    simp [pagLoop]
  | cons o os ih =>
    intro i acc hik
    by_cases hk : k = i
    · subst hk
      rw [pagLoop, if_pos rfl, Nat.sub_self]
      rfl
    · have hlt : i < k := lt_of_le_of_ne hik (fun h => hk h.symm)
      rw [pagLoop, if_neg (fun hcc => hk (Option.some.inj hcc))]
      obtain ⟨m, hm⟩ : ∃ m, k - i = m + 1 := ⟨k - i - 1, by omega⟩
      rw [hm, List.take_succ_cons]
      have hrhs : (pagLoop lf none i acc (o :: List.take m os)).2 =
          (pagLoop lf none (i + 1) ((lf i).foldl addUnique acc) (List.take m os)).2 := by
        rw [pagLoop, if_neg (by simp)]
      rw [hrhs]
      have hmm : m = k - (i + 1) := by omega
      rw [hmm]
      exact ih (i + 1) ((lf i).foldl addUnique acc) (by omega)

/-- C10: when selecting or scanning pagination option k throws, the links
already collected from the earlier options are retained: the error is
caught and logged, the attempt proceeds normally, and the walker visits
exactly the links collected from the first k options (not an empty set). -/
theorem pagination_failure_keeps_earlier_links (env : AttemptEnv) (k : Nat)
    (hg : env.gotoFails = false) (hc : env.pagControlMissing = false)
    (hf : env.pagFailAt = some k) (hk : k < env.options.length) :
    Ev.pagErrorLogged ∈ (attemptBody env).1 ∧
    visitsOf (attemptBody env).1 =
      (pagLoop env.linksFor none 0 [] (env.options.take k)).2 ∧
    (attemptBody env).2 = Except.ok
      (walkProfiles env.fetch 0
        ((pagLoop env.linksFor none 0 [] (env.options.take k)).2)).2 := by
  have hpp : paginationPhase env = pagLoop env.linksFor (some k) 0 [] env.options := by
    rw [paginationPhase, if_neg (by simp [hc]), hf]
  have hL : (paginationPhase env).2 =
      (pagLoop env.linksFor none 0 [] (env.options.take k)).2 := by
    rw [hpp]
    have h := pagLoop_fail_take env.linksFor k env.options 0 [] (Nat.zero_le k)
    rw [Nat.sub_zero] at h
    exact h
  have hmem : Ev.pagErrorLogged ∈ (paginationPhase env).1 := by
    rw [hpp]
    exact pagLoop_fail_mem env.linksFor k env.options 0 [] (Nat.zero_le k)
      (by omega)
  by_cases hnil : (paginationPhase env).2 = []
  · have hA : attemptBody env = ((paginationPhase env).1, Except.ok []) := by
      rw [attemptBody, if_neg (by simp [hg])]
      simp [hnil]
    rw [hA]
    refine ⟨hmem, ?_, ?_⟩
    · rw [pagPhase_no_visit env, ← hL, hnil]
    · rw [← hL, hnil]
      rfl
  · have hA : attemptBody env =
        ((paginationPhase env).1 ++
          (walkProfiles env.fetch 0 (paginationPhase env).2).1 ++ [Ev.close],
          Except.ok (walkProfiles env.fetch 0 (paginationPhase env).2).2) := by
      rw [attemptBody, if_neg (by simp [hg])]
      simp [List.isEmpty_iff, hnil]
    rw [hA]
    refine ⟨?_, ?_, ?_⟩
    · exact List.mem_append.mpr (Or.inl (List.mem_append.mpr (Or.inl hmem)))
    · rw [visitsOf_append, visitsOf_append, pagPhase_no_visit env,
        walkProfiles_visits env.fetch (paginationPhase env).2 0, hL]
      simp [visitsOf]
    · rw [hL]

/-- Witness for C10 on a concrete run: options 10 and 25 where handling
the second option throws; the link from the first option survives and is
the one the walker visits. -/
theorem pagination_failure_keeps_earlier_links_witness :
    Ev.pagErrorLogged ∈ (attemptBody cPagFailEnv).1 ∧
    visitsOf (attemptBody cPagFailEnv).1 = ["A"] := by
  have h := pagination_failure_keeps_earlier_links cPagFailEnv 1 rfl rfl rfl
    (by decide)
  refine ⟨h.1, ?_⟩
  rw [h.2.1]
  decide
